import Mathlib

/-!
Shallow embedding of the minor-variant caller and haplotype phaser in
`src/AminoAcidCaller.cpp` (PacBio minorseq, juliet).  C++ `double`
arithmetic is modelled with `ℚ`, machine integers with `ℤ`/`ℕ`.  External
collaborators that are declared outside this translation unit (the
amino-acid table `AAT::FromCodon`, the Fisher-exact routine
`Statistics::Fisher::fisher_exact_tiss`, the substitution model) are
passed as parameters to the definitions that consume them, so every
definition stays executable.
-/

/-- Error model (`ErrorEstimates`): per-base match, substitution and deletion
probabilities.  The C++ field `match` is a Lean keyword, hence `matchP`. -/
structure ErrorEstimates where
  matchP : ℚ
  substitution : ℚ
  deletion : ℚ

/-- `AminoAcidCaller::Probability` (lines 385-399): probability of reading
codon `b` when the true codon is `a`, multiplying per aligned base the
deletion probability (either side a gap), the substitution probability
(unequal bases) or the match probability (equal bases); `0` when the
lengths differ. -/
def Probability (err : ErrorEstimates) (a b : String) : ℚ :=
  if a.length ≠ b.length then 0
  else
    (a.data.zip b.data).foldl
      (fun p xy =>
        p * (if xy.1 = '-' ∨ xy.2 = '-' then err.deletion
             else if xy.1 ≠ xy.2 then err.substitution
             else err.matchP)) 1

/-- A DRM mutation triple `DMutation(refAminoAcid, codonPos, variantAA)`;
its `operator==` (declared in the project headers) compares the triple
field-wise, per the spec's DRM-annotator contract. -/
structure DMutation where
  refAminoAcid : Char
  position : ℤ
  aminoAcid : Char
deriving DecidableEq

/-- One configured DRM rule set (`gene.drms` entry): a name and the set of
mutation triples it matches. -/
structure DrmRuleSet where
  name : String
  positions : List DMutation

/-- One configured expected/predicted minor variant (`tg.minors` entry). -/
structure MinorRule where
  position : ℤ
  aminoacid : String
  codon : String

/-- Target gene configuration, restricted to the fields the claims touch. -/
structure TargetGene where
  name : String
  drms : List DrmRuleSet
  minors : List MinorRule

/-- `AminoAcidCaller::FindDRMs` (lines 123-142): for the first gene whose
name matches, concatenate (joined by `" + "`) the names of all DRM rule
sets containing the queried mutation triple. -/
def FindDRMs (geneName : String) (genes : List TargetGene) (curDRM : DMutation) : String :=
  match genes.find? (fun g => g.name == geneName) with
  | none => ""
  | some gene =>
      gene.drms.foldl
        (fun acc rs =>
          if curDRM ∈ rs.positions then
            (if acc = "" then rs.name else acc ++ " + " ++ rs.name)
          else acc) ""

/-- The `Predictor` lambda inside `MeasurePerformance` (lines 407-417):
the call matches a configured predicted minor exactly (position, first
character of the configured amino-acid string, and codon).  C++
`minor.aminoacid[0]` on an empty `std::string` yields the null character,
modelled by `headD (Char.ofNat 0)`. -/
def Predictor (minors : List MinorRule) (codonPos : ℤ) (aminoacid : Char) (codon : String) : Bool :=
  minors.any fun m =>
    codonPos == m.position && aminoacid == m.aminoacid.data.headD (Char.ofNat 0)
      && codon == m.codon

/-- The guard inside the `StoreVariant` lambda (lines 579-594):
`debug_ || freq * 100 >= minimalPerc_`. -/
def StoreVariantFires (debug : Bool) (freq minimalPerc : ℚ) : Bool :=
  debug || decide (freq * 100 ≥ minimalPerc)

/-- The acceptance logic of `CallVariants` for one tested codon
(lines 595-612 around the `StoreVariant` calls): `debug_` stores directly;
otherwise the corrected p-value must be below `alpha`, and either DRM-only
mode demands a DRM match, or one of predictor match / (expected minors and
variable site) / no expected minors lets the call through; in each case the
`StoreVariant` guard is applied on top. -/
def variantStored (debug drmOnly drmMatch predictorSite hasExpectedMinors variableSite : Bool)
    (p alpha freq minimalPerc : ℚ) : Bool :=
  if debug then StoreVariantFires debug freq minimalPerc
  else if p < alpha then
    if drmOnly then
      if drmMatch then StoreVariantFires debug freq minimalPerc else false
    else if predictorSite then StoreVariantFires debug freq minimalPerc
    else if hasExpectedMinors && variableSite then StoreVariantFires debug freq minimalPerc
    else if !hasExpectedMinors then StoreVariantFires debug freq minimalPerc
    else false
  else false

/-- Acceptance condition of claim C1, following the spec's words for the
debug-off case: corrected p-value below alpha AND (predictor match OR
(DRM-only set and DRM match) OR no predicted-minor configuration OR
(expected minors configured and variable site)). -/
def specAcceptDebugOff (drmOnly drmMatch predictorSite hasExpectedMinors variableSite : Bool)
    (p alpha : ℚ) : Bool :=
  decide (p < alpha) &&
    (predictorSite || (drmOnly && drmMatch) || !hasExpectedMinors
      || (hasExpectedMinors && variableSite))

/-- Acceptance condition of claim C2, following the spec's words for the
debug-on case: the observed frequency exceeds the minimal-percentage
display floor. -/
def specAcceptDebug (freq minimalPerc : ℚ) : Bool :=
  decide (freq * 100 > minimalPerc)

/-- One stored variant codon (`VariantGene::VariantPosition::VariantCodon`),
restricted to the fields filled in by `StoreVariant`. -/
structure VariantCodon where
  codon : String
  frequency : ℚ
  pValue : ℚ
  knownDRM : String
deriving DecidableEq

/-- The body of the per-codon loop of `CallVariants` (lines 558-612) for a
single entry `cc` of the codon census: skip the reference and alternate
reference, compute the expected count, the Bonferroni-corrected and clamped
p-value, the variable-site and predictor classification, and store the
variant codon (keyed by its amino acid) when the acceptance logic fires. -/
def processCodon (aaOf : String → Char) (fisher : ℤ → ℤ → ℤ → ℤ → ℚ) (err : ErrorEstimates)
    (debug drmOnly hasExpectedMinors : Bool) (minimalPerc alpha : ℚ) (numberOfTests : ℤ)
    (geneName : String) (genes : List TargetGene) (minors : List MinorRule) (codonPos : ℤ)
    (refCodon altRefCodon : String) (refAminoAcid : Char)
    (coverage : ℕ) (cc : String × ℕ) : Option (Char × VariantCodon) :=
  if refCodon = cc.1 then none
  else if altRefCodon ≠ "" ∧ altRefCodon = cc.1 then none
  else
    let expected := (coverage : ℚ) * Probability err refCodon cc.1
    let praw := fisher ⌈((cc.2 : ℚ))⌉ ⌈(coverage : ℚ) - (cc.2 : ℚ)⌉ ⌈expected⌉
        ⌈(coverage : ℚ) - expected⌉ * (numberOfTests : ℚ)
    let p := if praw > 1 then 1 else praw
    let variableSite := decide ((cc.2 : ℚ) / (coverage : ℚ) < 8/10)
    let predictorSite := Predictor minors codonPos (aaOf cc.1) cc.1
    let drmMatch := decide (FindDRMs geneName genes ⟨refAminoAcid, codonPos, aaOf cc.1⟩ ≠ "")
    let freq := (cc.2 : ℚ) / (coverage : ℚ)
    if variantStored debug drmOnly drmMatch predictorSite hasExpectedMinors variableSite
        p alpha freq minimalPerc then
      some (aaOf cc.1,
        ⟨cc.1, freq, p, FindDRMs geneName genes ⟨refAminoAcid, codonPos, aaOf cc.1⟩⟩)
    else none

/-- The full per-position codon loop of `CallVariants` (lines 558-613):
fold `processCodon` over the codon census, collecting the stored variant
codons in loop order. -/
def callPositionVariants (aaOf : String → Char) (fisher : ℤ → ℤ → ℤ → ℤ → ℚ)
    (err : ErrorEstimates) (debug drmOnly hasExpectedMinors : Bool)
    (minimalPerc alpha : ℚ) (numberOfTests : ℤ)
    (geneName : String) (genes : List TargetGene) (minors : List MinorRule) (codonPos : ℤ)
    (refCodon altRefCodon : String) (refAminoAcid : Char)
    (codons : List (String × ℕ)) (coverage : ℕ) : List (Char × VariantCodon) :=
  codons.foldl
    (fun acc cc =>
      match processCodon aaOf fisher err debug drmOnly hasExpectedMinors minimalPerc alpha
          numberOfTests geneName genes minors codonPos refCodon altRefCodon refAminoAcid
          coverage cc with
      | some x => acc ++ [x]
      | none => acc) []

/-- `FindMajorityCall` (lines 520-534): scan the codon census (a `std::map`,
modelled as its ordered association list) for the codon with the strictly
highest count, starting from `max = -1`; return `(0, "")` when the winning
codon is not in the amino-acid table (`validCodon`).  The returned
amino-acid character is derived from the codon and not needed by any
claim, so it is omitted here. -/
def FindMajorityCall (validCodon : String → Bool) (codons : List (String × ℕ)) : ℤ × String :=
  let step := codons.foldl
    (fun acc cc => if (cc.2 : ℤ) > acc.1 then ((cc.2 : ℤ), cc.1) else acc) (-1, "")
  if validCodon step.2 then (step.1, step.2) else (0, "")

/-- Reference resolution of `CallVariants` (lines 536-556): with an external
reference, take the reference codon from it, skip the position when it is
not a recognized triplet or when the majority coverage is zero, and record
the majority codon as alternate reference when its share of coverage
exceeds `maximalPerc`; without an external reference, the majority codon
becomes the reference.  Returns `(refCodon, altRefCodon)` with `""` for an
absent alternate reference, or `none` when the position is skipped. -/
def resolveReference (validCodon : String → Bool) (hasReference : Bool) (refFromSeq : String)
    (codons : List (String × ℕ)) (coverage : ℕ) (maximalPerc : ℚ) : Option (String × String) :=
  if hasReference then
    if validCodon refFromSeq then
      let mc := FindMajorityCall validCodon codons
      if mc.1 = 0 then none
      else if (mc.1 : ℚ) * 100 / (coverage : ℚ) > maximalPerc then some (refFromSeq, mc.2)
      else some (refFromSeq, "")
    else none
  else
    let mc := FindMajorityCall validCodon codons
    if mc.1 = 0 then none else some (mc.2, "")

/-- The alternate-reference codon recorded by `resolveReference`, with `""`
meaning none was recorded (matching the C++ emptiness convention). -/
def recordedAltRef (r : Option (String × String)) : String :=
  (r.map Prod.snd).getD ""

/-- The four arguments passed to `fisher_exact_tiss` (lines 566-568):
`std::ceil` of the observed count, of coverage minus observed, of the
expected count `coverage * Probability(refCodon, codon)`, and of coverage
minus expected. -/
def fisherArguments (err : ErrorEstimates) (observed coverage : ℕ) (refCodon codon : String) :
    ℤ × ℤ × ℤ × ℤ :=
  let expected := (coverage : ℚ) * Probability err refCodon codon
  (⌈((observed : ℚ))⌉, ⌈(coverage : ℚ) - (observed : ℚ)⌉, ⌈expected⌉,
    ⌈(coverage : ℚ) - expected⌉)

/-- The Fisher arguments as claim C3 words them: fractional values
converted to integers by rounding to the nearest integer. -/
def fisherArgumentsNearest (err : ErrorEstimates) (observed coverage : ℕ)
    (refCodon codon : String) : ℤ × ℤ × ℤ × ℤ :=
  let expected := (coverage : ℚ) * Probability err refCodon codon
  (round ((observed : ℚ)), round ((coverage : ℚ) - (observed : ℚ)), round expected,
    round ((coverage : ℚ) - expected))

/-- Generator display naming of `PhaseVariants` (lines 298-308): single
letter `'A' + rank` when there are at most 26 generators, otherwise the
two-letter name `('A' + rank / 26)('a' + rank mod 26)` for every rank. -/
def generatorName (numGenerators rank : ℕ) : String :=
  if numGenerators > 26 then
    String.mk [Char.ofNat ('A'.toNat + rank / 26), Char.ofNat ('a'.toNat + rank % 26)]
  else
    String.mk [Char.ofNat ('A'.toNat + rank)]

/-- The comparator lambda passed to the stable descending sort of the
generators (lines 293-296), applied to the two cluster sizes:
`a->Size() >= b->Size()`. -/
def generatorsSortComp (a b : ℕ) : Bool :=
  decide (a ≥ b)

/-- A haplotype cluster (`Haplotype`), restricted to the fields mutated by
the clustering loop: the codon tuple, the contributing read names, and the
quality bit flags. -/
structure Haplotype where
  Codons : List String
  Names : List String
  Flags : ℕ
deriving DecidableEq

/-- The per-cluster comparison of `CompareHaplotypes` (lines 192-213):
differing codon counts are treated as not equal (no error), otherwise the
codon tuples are compared element-wise. -/
def sameCodons (a b : List String) : Bool :=
  if a.length ≠ b.length then false
  else (a.zip b).all fun p => p.1 = p.2

/-- One iteration of the read-clustering loop of `PhaseVariants`
(lines 188-225): append the read name to the first cluster whose codon
tuple compares equal, otherwise append a fresh single-read cluster carrying
the read's flags at the end of the observation list. -/
def addRowToClusters : List Haplotype → List String → String → ℕ → List Haplotype
  | [], codons, name, flag => [⟨codons, [name], flag⟩]
  | h :: hs, codons, name, flag =>
      if sameCodons h.Codons codons then { h with Names := h.Names ++ [name] } :: hs
      else h :: addRowToClusters hs codons name flag

/-- One MSA row as the phaser sees it: the read name, the codon tuple
extracted at the variant-position slots, and the flags computed for it. -/
structure RowObs where
  name : String
  codons : List String
  flag : ℕ

/-- The whole clustering pass of `PhaseVariants` (lines 174-225): fold the
rows into an initially empty observation list. -/
def clusterReads (rows : List RowObs) : List Haplotype :=
  rows.foldl (fun obs r => addRowToClusters obs r.codons r.name r.flag) []

/-- Modelled from the spec: the `HaplotypeType::LOW_COV` bit constant
(`HaplotypeType.h` is not part of the translation unit); the claims only
need it to be a nonzero bit flag. -/
def LOW_COV : ℕ := 2

/-- One iteration of the generator/filtered classification loop
(lines 229-235): clusters with fewer than 10 reads gain the `LOW_COV`
flag, then flag-free clusters become generators and all others filtered. -/
def classifyStep (gf : List Haplotype × List Haplotype) (h : Haplotype) :
    List Haplotype × List Haplotype :=
  let h2 := if h.Names.length < 10 then { h with Flags := h.Flags ||| LOW_COV } else h
  if h2.Flags = 0 then (gf.1 ++ [h2], gf.2) else (gf.1, gf.2 ++ [h2])

/-- The generator/filtered split of the observation list (lines 227-235). -/
def classify (obs : List Haplotype) : List Haplotype × List Haplotype :=
  obs.foldl classifyStep ([], [])

/-- Total read count of a cluster list (`Haplotype::Size()` is the number
of contributing read names, summed over the clusters). -/
def clusterSizes (l : List Haplotype) : ℕ :=
  (l.map fun h => h.Names.length).sum

/-- The absolute key under which `PhaseVariants` collects a variant
position (lines 147-152): `vg.geneOffset + codonPos * 3`. -/
def variantPositionKey (geneBegin codonPos : ℤ) : ℤ :=
  geneBegin + codonPos * 3

/-- The codon position computed by `CallVariants` (line 491):
`1 + ri / 3` with `ri = i - geneOffset`, C++ integer division. -/
def codonPosAt (i geneBegin : ℤ) : ℤ :=
  1 + Int.tdiv (i - geneBegin) 3

/-- The row offset used by `ExtractRegionFromRow` (line 167):
`pos_var.first - msaByRow_.BeginPos - 3`. -/
def extractLocalOffset (key beginPos : ℤ) : ℤ :=
  key - beginPos - 3

/-- The window offset at which `CallVariants` tallies the codon census
(line 489): `bi = i - msaByRow_.BeginPos`. -/
def censusWindowOffset (i beginPos : ℤ) : ℤ :=
  i - beginPos

/-- Safe base access into a row at a signed window offset (the C++ code
uses checked `std::string::at`). -/
def rowCharAt (bases : List Char) (z : ℤ) : Option Char :=
  if 0 ≤ z then bases.get? z.toNat else none

/-- `ExtractRegionFromRow` (lines 162-172) specialised to `l = 0, r = 3`:
the three bases at offsets `local, local+1, local+2`. -/
def ExtractRegionFromRow (bases : List Char) (key beginPos : ℤ) : List (Option Char) :=
  [rowCharAt bases (extractLocalOffset key beginPos + 0),
   rowCharAt bases (extractLocalOffset key beginPos + 1),
   rowCharAt bases (extractLocalOffset key beginPos + 2)]

/-- The three bases tallied by the census loop of `CallVariants`
(lines 498-517) at window offset `bi`. -/
def censusCodonAt (bases : List Char) (bi : ℤ) : List (Option Char) :=
  [rowCharAt bases (bi + 0), rowCharAt bases (bi + 1), rowCharAt bases (bi + 2)]

/-- Auxiliary: a nonzero majority coverage means the winning codon passed
the amino-acid-table check inside `FindMajorityCall`. -/
theorem findMajority_valid (validCodon : String → Bool) (codons : List (String × ℕ))
    (h : (FindMajorityCall validCodon codons).1 ≠ 0) :
    validCodon (FindMajorityCall validCodon codons).2 = true := by
  by_cases hv : validCodon (codons.foldl
      (fun acc cc => if (cc.2 : ℤ) > acc.1 then ((cc.2 : ℤ), cc.1) else acc) (-1, "")).2 = true
  · simp [FindMajorityCall, hv]
  · exfalso
    apply h
    simp [FindMajorityCall, hv]

/-- Auxiliary: codon tuples comparing equal have equal length. -/
theorem sameCodons_length {a b : List String} (h : sameCodons a b = true) :
    a.length = b.length := by
  by_cases hl : a.length = b.length
  · exact hl
  · simp [sameCodons, hl] at h

/-- Auxiliary: inserting one read grows the total read count of the cluster
list by exactly one. -/
theorem addRow_sizes (obs : List Haplotype) (codons : List String) (name : String) (flag : ℕ) :
    clusterSizes (addRowToClusters obs codons name flag) = clusterSizes obs + 1 := by
  induction obs with
  | nil => simp [addRowToClusters, clusterSizes]
  | cons h hs ih =>
      by_cases hc : sameCodons h.Codons codons = true
      · simp [addRowToClusters, hc, clusterSizes]
        omega
      · simp [addRowToClusters, hc, clusterSizes] at ih ⊢
        omega

/-- Auxiliary: total read count over a cluster-list concatenation. -/
theorem clusterSizes_append (a b : List Haplotype) :
    clusterSizes (a ++ b) = clusterSizes a + clusterSizes b := by
  simp [clusterSizes]

/-- Auxiliary: folding the clustering step over the rows adds one read per
row to the total read count. -/
theorem clusterFold_sizes (rows : List RowObs) :
    ∀ obs : List Haplotype,
      clusterSizes (rows.foldl (fun o r => addRowToClusters o r.codons r.name r.flag) obs) =
        clusterSizes obs + rows.length := by
  induction rows with
  | nil => intro obs; simp
  | cons r rs ih =>
      intro obs
      simp only [List.foldl_cons, ih, addRow_sizes, List.length_cons]
      omega

/-- Auxiliary: the generator/filtered classification moves every cluster to
exactly one side, so the two total read counts sum to the input's. -/
theorem classifyFold_sizes (obs : List Haplotype) :
    ∀ gf : List Haplotype × List Haplotype,
      clusterSizes (obs.foldl classifyStep gf).1 + clusterSizes (obs.foldl classifyStep gf).2 =
        clusterSizes gf.1 + clusterSizes gf.2 + clusterSizes obs := by
  induction obs with
  | nil => intro gf; simp [clusterSizes]
  | cons h hs ih =>
      intro gf
      have hstep : clusterSizes (classifyStep gf h).1 + clusterSizes (classifyStep gf h).2 =
          clusterSizes gf.1 + clusterSizes gf.2 + h.Names.length := by
        simp only [classifyStep]
        split_ifs <;> simp [clusterSizes_append, clusterSizes] <;> omega
      simp only [List.foldl_cons]
      rw [ih (classifyStep gf h), hstep]
      simp only [clusterSizes, List.map_cons, List.sum_cons]
      omega

/-- Claim C1 (amended): with debug off, a tested non-reference codon is
stored if and only if the corrected p-value is below alpha AND its
frequency reaches the minimal-percentage display floor AND (in DRM-only
mode the call matches a configured DRM rule; otherwise the call matches a
configured predicted minor, or expected minors are configured and the site
is a variable site, or no expected minors are configured at all). -/
theorem variantStored_debug_off (drmOnly drmMatch predictorSite hasExpectedMinors
    variableSite : Bool) (p alpha freq minimalPerc : ℚ) :
    variantStored false drmOnly drmMatch predictorSite hasExpectedMinors variableSite
        p alpha freq minimalPerc =
      (decide (p < alpha) && decide (freq * 100 ≥ minimalPerc) &&
        (if drmOnly then drmMatch
         else (predictorSite || (hasExpectedMinors && variableSite) || !hasExpectedMinors))) := by
  by_cases hp : p < alpha <;>
    cases drmOnly <;> cases drmMatch <;> cases predictorSite <;>
      cases hasExpectedMinors <;> cases variableSite <;>
    simp [variantStored, StoreVariantFires, hp]

/-- Claim C1 as stated is false: with debug off, DRM-only mode set, no DRM
match, no expected minors, a significant p-value and a frequency above the
floor, the spec's acceptance condition holds (its "no predicted-minor
configuration" disjunct) but the code does not store the codon. -/
theorem variantStored_debug_off_cex :
    variantStored false true false false false false 0 1 1 0 ≠
      specAcceptDebugOff true false false false false 0 1 := by
  have h01 : (0 : ℚ) < 1 := by norm_num
  simp [variantStored, specAcceptDebugOff, StoreVariantFires, h01]

/-- Claim C2 (amended): with debug mode set, every tested non-reference
codon is stored, regardless of the minimal-percentage display floor and of
statistical significance. -/
theorem variantStored_debug_on (drmOnly drmMatch predictorSite hasExpectedMinors
    variableSite : Bool) (p alpha freq minimalPerc : ℚ) :
    variantStored true drmOnly drmMatch predictorSite hasExpectedMinors variableSite
        p alpha freq minimalPerc = true := by
  simp [variantStored, StoreVariantFires]

/-- Claim C2 as stated is false: with debug set and an observed frequency
of 0 percent against a display floor of 50 percent, the code stores the
codon although the claim says no codon below the floor is accepted. -/
theorem variantStored_debug_on_cex :
    variantStored true false false false false false 0 1 0 50 ≠ specAcceptDebug 0 50 := by
  have h : ¬ ((0 : ℚ) * 100 > 50) := by norm_num
  simp [variantStored, StoreVariantFires, specAcceptDebug, h]

/-- Claim C5: with at most 26 generators the generator at rank `r` is named
by the single letter `'A' + r`; only with more than 26 generators are
two-letter names used, upper-case `'A' + r / 26` followed by lower-case
`'a' + r mod 26`. -/
theorem generatorName_alphabet (n r : ℕ) :
    (n ≤ 26 → generatorName n r = String.mk [Char.ofNat ('A'.toNat + r)]) ∧
    (26 < n → generatorName n r =
      String.mk [Char.ofNat ('A'.toNat + r / 26), Char.ofNat ('a'.toNat + r % 26)]) := by
  constructor
  · intro h
    simp only [generatorName]
    rw [if_neg (by omega)]
  · intro h
    simp only [generatorName]
    rw [if_pos h]

/-- Witness for claim C5: with 3 generators rank 1 is "B"; with 30
generators rank 27 gets the two-letter name. -/
theorem generatorName_alphabet_witness :
    generatorName 3 1 = String.mk [Char.ofNat ('A'.toNat + 1)] ∧
    generatorName 30 27 =
      String.mk [Char.ofNat ('A'.toNat + 27 / 26), Char.ofNat ('a'.toNat + 27 % 26)] :=
  ⟨(generatorName_alphabet 3 1).1 (by decide), (generatorName_alphabet 30 27).2 (by decide)⟩

/-- Claim C6: the comparator handed to the stable descending sort of the
generators returns true on every pair of equal sizes, so it is reflexive;
a comparator for `std::stable_sort` must be a strict weak ordering
(irreflexive), hence the call has undefined behaviour and the claimed
tie-preservation is not guaranteed by the code. -/
theorem generatorsSortComp_reflexive (n : ℕ) : generatorsSortComp n n = true := by
  simp [generatorsSortComp]

/-- Claim C8: after clustering all MSA rows and splitting the clusters into
generators and filtered, the cluster read counts sum to the number of
rows: every read is assigned to exactly one cluster. -/
theorem haplotype_sizes_sum_to_rows (rows : List RowObs) :
    clusterSizes (classify (clusterReads rows)).1 +
        clusterSizes (classify (clusterReads rows)).2 = rows.length := by
  unfold classify clusterReads
  rw [classifyFold_sizes]
  rw [clusterFold_sizes rows []]
  simp [clusterSizes]

/-- Claim C3 (amended): the four Fisher-exact arguments are the observed
count, coverage minus observed, and the ceiling (not the nearest integer)
of the expected count `coverage * Probability(refCodon, codon)` and of
coverage minus expected. -/
theorem fisherArguments_ceil (err : ErrorEstimates) (observed coverage : ℕ)
    (refCodon codon : String) :
    fisherArguments err observed coverage refCodon codon =
      ((observed : ℤ), (coverage : ℤ) - (observed : ℤ),
        ⌈(coverage : ℚ) * Probability err refCodon codon⌉,
        ⌈(coverage : ℚ) - (coverage : ℚ) * Probability err refCodon codon⌉) := by
  have h1 : (⌈((observed : ℚ))⌉ : ℤ) = (observed : ℤ) := Int.ceil_natCast observed
  have h2 : (⌈(coverage : ℚ) - (observed : ℚ)⌉ : ℤ) = (coverage : ℤ) - (observed : ℤ) := by
    rw [show (coverage : ℚ) - (observed : ℚ) = (((coverage : ℤ) - (observed : ℤ) : ℤ) : ℚ) by
      push_cast; ring]
    exact Int.ceil_intCast _
  simp only [fisherArguments, h1, h2]

/-- Claim C3 as stated is false: with match probability 1, substitution
probability 1/4, coverage 1, observed 0 and candidate codon "AAC" against
reference "AAA", the expected count is 1/4, which the code ceils to 1
while rounding to the nearest integer would give 0. -/
theorem fisherArguments_not_nearest :
    fisherArguments ⟨1, 1/4, 1⟩ 0 1 "AAA" "AAC" ≠
      fisherArgumentsNearest ⟨1, 1/4, 1⟩ 0 1 "AAA" "AAC" := by
  have hd : ("AAA" : String).data = ['A', 'A', 'A'] := by decide
  have hd2 : ("AAC" : String).data = ['A', 'A', 'C'] := by decide
  have hp : Probability ⟨1, 1/4, 1⟩ "AAA" "AAC" = 1/4 := by
    have hl : ¬(("AAA" : String).length ≠ ("AAC" : String).length) := by decide
    simp [Probability, hd, hd2, hl]
  have hceil : (⌈((1 : ℕ) : ℚ) * (1/4)⌉ : ℤ) = 1 := by
    rw [Int.ceil_eq_iff]; norm_num
  have hround : round (((1 : ℕ) : ℚ) * (1/4)) = 0 := by
    rw [round_eq, Int.floor_eq_iff]; norm_num
  intro h
  have h3 := congrArg (fun t => t.2.2.1) h
  simp only [fisherArguments, fisherArgumentsNearest, hp] at h3
  rw [hceil, hround] at h3
  exact absurd h3 (by decide)

/-- Claim C4 (amended): an alternate-reference codon is recorded at a
position if and only if an external reference is configured, the reference
codon is a recognized triplet, the majority coverage is nonzero, and the
majority codon's share of coverage exceeds the maximal-percentage
threshold; the code does not require the majority codon to differ from the
reference codon.  The hypothesis states that the empty string is not in
the amino-acid table. -/
theorem altRef_recorded_iff (validCodon : String → Bool) (hasReference : Bool)
    (refFromSeq : String) (codons : List (String × ℕ)) (coverage : ℕ) (maximalPerc : ℚ)
    (hempty : validCodon "" = false) :
    recordedAltRef
        (resolveReference validCodon hasReference refFromSeq codons coverage maximalPerc) ≠ "" ↔
      (hasReference = true ∧ validCodon refFromSeq = true ∧
        (FindMajorityCall validCodon codons).1 ≠ 0 ∧
        ((FindMajorityCall validCodon codons).1 : ℚ) * 100 / (coverage : ℚ) > maximalPerc) := by
  cases hasReference with
  | false =>
      simp only [resolveReference, recordedAltRef]
      by_cases h0 : (FindMajorityCall validCodon codons).1 = 0 <;> simp [h0]
  | true =>
      by_cases hv : validCodon refFromSeq = true
      · by_cases h0 : (FindMajorityCall validCodon codons).1 = 0
        · simp [resolveReference, recordedAltRef, hv, h0]
        · by_cases hs : ((FindMajorityCall validCodon codons).1 : ℚ) * 100 / (coverage : ℚ) >
              maximalPerc
          · have hval := findMajority_valid validCodon codons h0
            have hne : (FindMajorityCall validCodon codons).2 ≠ "" := by
              intro he
              rw [he, hempty] at hval
              exact Bool.false_ne_true hval
            simp [resolveReference, recordedAltRef, hv, h0, hs, hne]
          · simp [resolveReference, recordedAltRef, hv, h0, hs]
      · have hv' : validCodon refFromSeq = false := by
          cases hb : validCodon refFromSeq
          · rfl
          · exact absurd hb hv
        simp [resolveReference, recordedAltRef, hv']

/-- Witness for claim C4 (amended): a configuration where the reference
comes from the external sequence, the majority codon wins with full
coverage above the threshold, and an alternate reference is recorded. -/
theorem altRef_recorded_iff_witness :
    recordedAltRef (resolveReference (fun c => c == "AAA" || c == "CCC") true "CCC"
      [("AAA", 10)] 10 50) ≠ "" :=
  (altRef_recorded_iff (fun c => c == "AAA" || c == "CCC") true "CCC" [("AAA", 10)] 10 50
      (by decide)).mpr
    ⟨rfl, by decide, by decide, by
      have h : FindMajorityCall (fun c => c == "AAA" || c == "CCC") [("AAA", 10)] =
          (10, "AAA") := by decide
      rw [h]
      norm_num⟩

/-- Claim C4 as stated is false: with an external reference equal to the
majority codon "AAA" at full coverage above the threshold, the code still
records "AAA" as alternate reference although the claim says no alternate
reference is recorded when the majority equals the reference. -/
theorem altRef_equal_ref_cex :
    ¬ (recordedAltRef (resolveReference (fun c => c == "AAA") true "AAA"
          [("AAA", 10)] 10 50) ≠ "" ↔
        (true = true ∧ (FindMajorityCall (fun c => c == "AAA") [("AAA", 10)]).2 ≠ "AAA" ∧
          ((FindMajorityCall (fun c => c == "AAA") [("AAA", 10)]).1 : ℚ) * 100 / (10 : ℚ) > 50)) := by
  have hm : FindMajorityCall (fun c => c == "AAA") [("AAA", 10)] = (10, "AAA") := by decide
  have hr : recordedAltRef (resolveReference (fun c => c == "AAA") true "AAA"
      [("AAA", 10)] 10 50) = "AAA" := by
    simp [resolveReference, recordedAltRef, hm]
    norm_num
  rw [hr, hm]
  intro hiff
  exact (hiff.mp (by decide)).2.1 rfl

/-- Auxiliary: when `processCodon` stores a codon, that codon is neither the
reference nor a set alternate reference. -/
theorem processCodon_some_ne {aaOf : String → Char} {fisher : ℤ → ℤ → ℤ → ℤ → ℚ}
    {err : ErrorEstimates} {debug drmOnly hasExpectedMinors : Bool}
    {minimalPerc alpha : ℚ} {numberOfTests : ℤ} {geneName : String}
    {genes : List TargetGene} {minors : List MinorRule} {codonPos : ℤ}
    {refCodon altRefCodon : String} {refAminoAcid : Char} {coverage : ℕ}
    {cc : String × ℕ} {x : Char × VariantCodon}
    (h : processCodon aaOf fisher err debug drmOnly hasExpectedMinors minimalPerc alpha
      numberOfTests geneName genes minors codonPos refCodon altRefCodon refAminoAcid
      coverage cc = some x) :
    x.2.codon ≠ refCodon ∧ (altRefCodon ≠ "" → x.2.codon ≠ altRefCodon) := by
  simp only [processCodon] at h
  split at h
  · exact absurd h (by simp)
  · next h1 =>
      split at h
      · exact absurd h (by simp)
      · next h2 =>
          split at h <;> split at h <;>
            first
              | (obtain rfl := Option.some.inj h
                 exact ⟨fun he => h1 he.symm, fun hne he => h2 ⟨hne, he.symm⟩⟩)
              | exact Option.noConfusion h

/-- Auxiliary: the per-position fold preserves the property that every
collected codon differs from the reference and the alternate reference. -/
theorem callPositionVariants_fold_ne (aaOf : String → Char) (fisher : ℤ → ℤ → ℤ → ℤ → ℚ)
    (err : ErrorEstimates) (debug drmOnly hasExpectedMinors : Bool)
    (minimalPerc alpha : ℚ) (numberOfTests : ℤ) (geneName : String)
    (genes : List TargetGene) (minors : List MinorRule) (codonPos : ℤ)
    (refCodon altRefCodon : String) (refAminoAcid : Char) (coverage : ℕ) :
    ∀ (l : List (String × ℕ)) (acc : List (Char × VariantCodon)),
      (∀ pr ∈ acc, pr.2.codon ≠ refCodon ∧ (altRefCodon ≠ "" → pr.2.codon ≠ altRefCodon)) →
      ∀ pr ∈ l.foldl
          (fun acc cc =>
            match processCodon aaOf fisher err debug drmOnly hasExpectedMinors minimalPerc
                alpha numberOfTests geneName genes minors codonPos refCodon altRefCodon
                refAminoAcid coverage cc with
            | some x => acc ++ [x]
            | none => acc) acc,
        pr.2.codon ≠ refCodon ∧ (altRefCodon ≠ "" → pr.2.codon ≠ altRefCodon) := by
  intro l
  induction l with
  | nil => intro acc hacc; simpa using hacc
  | cons cc l ih =>
      intro acc hacc
      simp only [List.foldl_cons]
      apply ih
      cases hpc : processCodon aaOf fisher err debug drmOnly hasExpectedMinors minimalPerc
          alpha numberOfTests geneName genes minors codonPos refCodon altRefCodon
          refAminoAcid coverage cc with
      | none => simpa [hpc] using hacc
      | some x =>
          simp only [hpc]
          intro pr hpr
          rcases List.mem_append.mp hpr with hin | hin
          · exact hacc pr hin
          · rcases List.mem_singleton.mp hin with rfl
            exact processCodon_some_ne hpc

/-- Claim C7: every codon collected for the report at a position differs
from the position's reference codon, and, when an alternate-reference
codon is set, also from the alternate-reference codon. -/
theorem stored_codon_ne_reference (aaOf : String → Char) (fisher : ℤ → ℤ → ℤ → ℤ → ℚ)
    (err : ErrorEstimates) (debug drmOnly hasExpectedMinors : Bool)
    (minimalPerc alpha : ℚ) (numberOfTests : ℤ) (geneName : String)
    (genes : List TargetGene) (minors : List MinorRule) (codonPos : ℤ)
    (refCodon altRefCodon : String) (refAminoAcid : Char)
    (codons : List (String × ℕ)) (coverage : ℕ) :
    ∀ c ∈ (callPositionVariants aaOf fisher err debug drmOnly hasExpectedMinors minimalPerc
        alpha numberOfTests geneName genes minors codonPos refCodon altRefCodon refAminoAcid
        codons coverage).map (fun pr => pr.2.codon),
      c ≠ refCodon ∧ (altRefCodon ≠ "" → c ≠ altRefCodon) := by
  intro c hc
  rcases List.mem_map.mp hc with ⟨pr, hpr, rfl⟩
  exact callPositionVariants_fold_ne aaOf fisher err debug drmOnly hasExpectedMinors
    minimalPerc alpha numberOfTests geneName genes minors codonPos refCodon altRefCodon
    refAminoAcid coverage codons [] (by intro pr h; cases h) pr hpr

/-- Witness for claim C7: a position with reference "AAA", no alternate
reference, debug mode on, census entries "AAA" and "AAC"; the codon "AAC"
is collected and differs from the reference. -/
theorem stored_codon_ne_reference_witness :
    ("AAC" : String) ≠ "AAA" ∧ (("" : String) ≠ "" → ("AAC" : String) ≠ "") :=
  stored_codon_ne_reference (fun _ => 'K') (fun _ _ _ _ => 0) ⟨1, 1, 1⟩ true false false 0 1 1
    "g" [] [] 1 "AAA" "" 'K' [("AAA", 5), ("AAC", 5)] 10 "AAC" (by
      simp [callPositionVariants, processCodon, variantStored, StoreVariantFires])

/-- Auxiliary: the inserted read always starts or joins a cluster whose
codon tuple has the read's own length. -/
theorem addRow_joins_own_length (obs : List Haplotype) (codons : List String)
    (name : String) (flag : ℕ) :
    ∃ h2 ∈ addRowToClusters obs codons name flag,
      name ∈ h2.Names ∧ h2.Codons.length = codons.length := by
  induction obs with
  | nil => exact ⟨⟨codons, [name], flag⟩, by simp [addRowToClusters]⟩
  | cons h hs ih =>
      by_cases hc : sameCodons h.Codons codons = true
      · refine ⟨{ h with Names := h.Names ++ [name] }, ?_, ?_, ?_⟩
        · simp [addRowToClusters, hc]
        · simp
        · simpa using sameCodons_length hc
      · obtain ⟨h2, hmem, hn, hl⟩ := ih
        exact ⟨h2, by simp [addRowToClusters, hc, hmem], hn, hl⟩

/-- Auxiliary: a cluster whose codon count differs from the read's is left
untouched, at its position, by the insertion. -/
theorem addRow_keeps_mismatched (codons : List String) (name : String) (flag : ℕ) :
    ∀ (obs : List Haplotype) (i : ℕ) (hi : i < obs.length),
      (obs.get ⟨i, hi⟩).Codons.length ≠ codons.length →
      (addRowToClusters obs codons name flag).get? i = some (obs.get ⟨i, hi⟩) := by
  intro obs
  induction obs with
  | nil => intro i hi; exact absurd hi (by simp)
  | cons h hs ih =>
      intro i hi hlen
      by_cases hc : sameCodons h.Codons codons = true
      · cases i with
        | zero => exact absurd (sameCodons_length hc) (by simpa using hlen)
        | succ j =>
            have hj : j < hs.length := by simpa using hi
            simp only [addRowToClusters, hc, if_true, List.get?_cons_succ]
            rw [List.get?_eq_get hj]
            rfl
      · cases i with
        | zero => simp [addRowToClusters, hc]
        | succ j =>
            have hj : j < hs.length := by simpa using hi
            have hrec := ih j hj (by simpa using hlen)
            simpa [addRowToClusters, hc, List.get?_cons_succ] using hrec

/-- Claim C9: a read whose extracted codon tuple has a different length
than a cluster's codon list is never merged into that cluster (the cluster
stays unchanged at its index), and the read always starts or joins a
cluster of its own tuple length. -/
theorem length_mismatch_never_merged (obs : List Haplotype) (codons : List String)
    (name : String) (flag : ℕ) (i : ℕ) (hi : i < obs.length)
    (hlen : (obs.get ⟨i, hi⟩).Codons.length ≠ codons.length) :
    (addRowToClusters obs codons name flag).get? i = some (obs.get ⟨i, hi⟩) ∧
      ∃ h2 ∈ addRowToClusters obs codons name flag,
        name ∈ h2.Names ∧ h2.Codons.length = codons.length :=
  ⟨addRow_keeps_mismatched codons name flag obs i hi hlen,
   addRow_joins_own_length obs codons name flag⟩

/-- Witness for claim C9: a two-codon cluster, a one-codon read; the
cluster is unchanged and the read opens its own one-codon cluster. -/
theorem length_mismatch_never_merged_witness :
    (addRowToClusters [⟨["AAA", "CCC"], ["r1"], 0⟩] ["AAA"] "r2" 0).get? 0 =
        some (⟨["AAA", "CCC"], ["r1"], 0⟩ : Haplotype) ∧
      ∃ h2 ∈ addRowToClusters [⟨["AAA", "CCC"], ["r1"], 0⟩] ["AAA"] "r2" 0,
        "r2" ∈ h2.Names ∧ h2.Codons.length = (["AAA"] : List String).length :=
  length_mismatch_never_merged [⟨["AAA", "CCC"], ["r1"], 0⟩] ["AAA"] "r2" 0 0 (by decide)
    (by decide)

/-- Auxiliary: under the codon-start divisibility guard of the calling
loop, the phaser's row offset equals the census window offset. -/
theorem tdiv_key_offset (i geneBegin beginPos : ℤ) (h : 3 ∣ (i - geneBegin)) :
    extractLocalOffset (variantPositionKey geneBegin (codonPosAt i geneBegin)) beginPos =
      censusWindowOffset i beginPos := by
  obtain ⟨c, hc⟩ := h
  unfold extractLocalOffset variantPositionKey codonPosAt censusWindowOffset
  rw [hc, Int.mul_tdiv_cancel_left c (by norm_num)]
  omega

/-- Claim C10: for a variant position collected under key
`geneOffset + codonPos * 3`, the three row bases read by
`ExtractRegionFromRow` are exactly the three bases the census of
`CallVariants` tallied at window offset `i - BeginPos`. -/
theorem phase_extracts_census_bases (bases : List Char) (i geneBegin beginPos : ℤ)
    (h : 3 ∣ (i - geneBegin)) :
    ExtractRegionFromRow bases (variantPositionKey geneBegin (codonPosAt i geneBegin)) beginPos =
      censusCodonAt bases (censusWindowOffset i beginPos) := by
  unfold ExtractRegionFromRow censusCodonAt
  rw [tdiv_key_offset i geneBegin beginPos h]

/-- Witness for claim C10: gene beginning at 3, window beginning at 2,
codon-aligned position 9; both sides read offsets 7, 8, 9. -/
theorem phase_extracts_census_bases_witness :
    ExtractRegionFromRow ['A', 'C', 'G', 'T', 'A', 'C', 'G', 'T', 'A', 'C']
        (variantPositionKey 3 (codonPosAt 9 3)) 2 =
      censusCodonAt ['A', 'C', 'G', 'T', 'A', 'C', 'G', 'T', 'A', 'C']
        (censusWindowOffset 9 2) :=
  phase_extracts_census_bases ['A', 'C', 'G', 'T', 'A', 'C', 'G', 'T', 'A', 'C'] 9 3 2
    ⟨2, by norm_num⟩
